import Mathlib

/-!
Verification of the noteshare feed-composition and rating code.

Shallow embedding of `core/views.py` (the `home` view's weighted search /
sort pipeline, lines 450-480, and the `rate_note` view, lines 623-650)
together with the relevant parts of `core/models.py` (the `Note`, `Rating`
and `Comment` rows and the `avg_rating` / `comment_count` annotations).

Modelling conventions:
 * Django querysets become Lean lists; `.filter` is `List.filter`,
   `.order_by` replaces the current ordering by a sort on the given key
   (exactly as in Django, where a later `order_by` discards an earlier one);
   sorting is `List.insertionSort` on a linearly ordered key, a
   deterministic refinement of SQL ORDER BY (ties in SQL are unspecified).
 * `icontains` (case-insensitive substring, as executed by SQLite's LIKE,
   which lower-cases ASCII only) is an ASCII-lower-cased substring test.
 * Nullable text fields are strings, with `""` for NULL: for a non-empty
   search term, `NULL LIKE '%t%'` and `'' LIKE '%t%'` both fail to match.
 * The `avg_rating` annotation is `WithBot ℚ` (`⊥` = SQL NULL, i.e. no
   ratings); under SQLite, `ORDER BY avg_rating DESC` puts NULL last,
   i.e. NULL sorts as the lowest value, which is exactly the `WithBot`
   order.  Descending SQL orderings are modelled by ascending orderings
   on a negated / order-dualised key.
 * Request data: the GET/POST parameters are passed explicitly
   (`q`/`sort` as strings, absent `q` as `""`, matching Python falsiness
   of both `None` and `""`; the POST `score` as `Option String`, `none`
   for an absent parameter).
-/

/-- A `Note` row as the `home` view sees it after
`annotate(avg_rating=Avg('ratings__score'), comment_count=Count('comments'))`:
the stored columns plus the two read-time aggregates. -/
structure Note where
  id : Nat
  /-- Username `user.username` of the owning user (the scorer matches on it). -/
  owner : String
  title : String
  course : String
  tags : String
  description : String
  createdAt : ℤ
  viewCount : Nat
  /-- Aggregate `Avg('ratings__score')`; `⊥` when the note has no ratings (SQL NULL). -/
  avgRating : WithBot ℚ
  /-- Aggregate `Count('comments')`. -/
  commentCount : Nat
deriving DecidableEq

/-- ASCII lower-casing of one character, as SQLite's case-insensitive LIKE
applies it. -/
def lowerChar (c : Char) : Char :=
  if 65 ≤ c.toNat ∧ c.toNat ≤ 90 then Char.ofNat (c.toNat + 32) else c

/-- A string as a list of ASCII-lower-cased characters. -/
def lowerStr (s : String) : List Char :=
  s.toList.map lowerChar

/-- Django's `field__icontains=term`: `term` occurs in `field` as a
case-insensitive substring. -/
def icontains (field term : String) : Bool :=
  let h := lowerStr field
  let t := lowerStr term
  (List.range (h.length + 1)).any fun i => t.isPrefixOf (h.drop i)

/-- The `relevance` annotation of the WEIGHTED SEARCH ALGORITHM in `home`:
the sum of the five conditional weights
(`Case(When(title__icontains=query, then=Value(10)), default=Value(0)) + ...`). -/
def score (n : Note) (q : String) : Nat :=
  (if icontains n.title q then 10 else 0) +
  (if icontains n.tags q then 8 else 0) +
  (if icontains n.course q then 6 else 0) +
  (if icontains n.owner q then 4 else 0) +
  (if icontains n.description q then 2 else 0)

/-- Sort a note list ascending by a linearly ordered key; the model of
`.order_by` on the corresponding column expression. -/
def sortByKey {κ : Type} [LinearOrder κ] (f : Note → κ) (l : List Note) : List Note :=
  List.insertionSort (fun a b => f a ≤ f b) l

/-- Key of `.order_by('-relevance', '-avg_rating', '-created_at')`:
lexicographic, each component negated/dualised to turn SQL DESC into an
ascending comparison (NULL rating last under DESC = `⊥` first under the
dual). -/
def searchKey (q : String) (n : Note) : ℤ ×ₗ ((WithBot ℚ)ᵒᵈ ×ₗ ℤ) :=
  toLex (-(score n q : ℤ), toLex (OrderDual.toDual n.avgRating, -n.createdAt))

/-- Key of `.order_by('-created_at')` (the `recent` default). -/
def recentKey (n : Note) : ℤ := -n.createdAt

/-- Key of `.order_by('created_at')` (`oldest`). -/
def oldestKey (n : Note) : ℤ := n.createdAt

/-- Key of `.order_by('-view_count')` (`most_viewed`). -/
def viewKey (n : Note) : ℤ := -(n.viewCount : ℤ)

/-- Key of `.order_by('-avg_rating')` (`top_rated`); NULL rating last. -/
def topRatedKey (n : Note) : (WithBot ℚ)ᵒᵈ := OrderDual.toDual n.avgRating

/-- The feed pipeline of the `home` view (`core/views.py` 450-480), on the
annotated candidate set.  `query` is the `q` GET parameter (`""` for
absent/None) and `sortBy` the `sort` parameter (default `"recent"`).
Mirrors the source line by line:

    if query:   # Python truthiness: any non-empty string
        notes = notes.annotate(relevance=...).filter(relevance__gt=0)
                     .order_by('-relevance', '-avg_rating', '-created_at')
    if sort_by == 'oldest': notes = notes.order_by('created_at')
    elif sort_by == 'most_viewed': notes = notes.order_by('-view_count')
    elif sort_by == 'top_rated': notes = notes.order_by('-avg_rating')
    elif not query: notes = notes.order_by('-created_at')

A later `order_by` replaces the earlier ordering; the `relevance__gt=0`
filter persists. -/
def composeFeed (candidates : List Note) (query sortBy : String) : List Note :=
  let notes :=
    if query ≠ "" then
      sortByKey (searchKey query) (candidates.filter fun n => 0 < score n query)
    else candidates
  if sortBy = "oldest" then sortByKey oldestKey notes
  else if sortBy = "most_viewed" then sortByKey viewKey notes
  else if sortBy = "top_rated" then sortByKey topRatedKey notes
  else if query = "" then sortByKey recentKey notes
  else notes

/-! ## Persisted rows and the full views

For the frame claim about `home` and for `rate_note` we also model the
stored tables themselves: `Note` rows as persisted (no aggregates),
`Rating` rows (`core/models.py` 98-103, unique per `(note, user)`), and
`Comment` rows. -/

/-- A persisted `Note` row (columns of `core/models.py`'s `Note`, plus the
owner's username since the scorer matches `user__username`). -/
structure NoteRec where
  id : Nat
  ownerId : Nat
  ownerName : String
  title : String
  course : String
  tags : String
  description : String
  createdAt : ℤ
  viewCount : Nat
deriving DecidableEq

/-- A persisted `Rating` row: `note` and `user` foreign keys and the
integer `score`. -/
structure RatingRec where
  userId : Nat
  noteId : Nat
  score : ℤ
deriving DecidableEq

/-- A persisted `Comment` row. -/
structure CommentRec where
  userId : Nat
  noteId : Nat
  text : String
  createdAt : ℤ
deriving DecidableEq

/-- The database state the two views read and write. -/
structure Store where
  notes : List NoteRec
  ratings : List RatingRec
  comments : List CommentRec
deriving DecidableEq

/-- The related manager `note.ratings`: the ratings of one note. -/
def ratingsOf (rs : List RatingRec) (nid : Nat) : List RatingRec :=
  rs.filter fun r => r.noteId == nid

/-- The `annotate(avg_rating=Avg('ratings__score'), comment_count=Count('comments'))`
step of `home`, computing the read-time aggregates for one row. -/
def annotateNote (st : Store) (nr : NoteRec) : Note :=
  let rl := ratingsOf st.ratings nr.id
  { id := nr.id, owner := nr.ownerName, title := nr.title, course := nr.course,
    tags := nr.tags, description := nr.description, createdAt := nr.createdAt,
    viewCount := nr.viewCount,
    avgRating :=
      if rl.length = 0 then ⊥
      else (((rl.map fun r => (r.score : ℚ)).sum / rl.length : ℚ) : WithBot ℚ),
    commentCount := (st.comments.filter fun c => c.noteId == nr.id).length }

/-- The `home` view (`core/views.py` 450-480) as a state transformer:
annotate all notes, compose the feed, and return the rendered note list
together with the (unchanged) database state. -/
def homeView (st : Store) (query sortBy : String) : List Note × Store :=
  let candidates := st.notes.map (annotateNote st)
  (composeFeed candidates query sortBy, st)

/-- The delete branch, `Rating.objects.filter(user=..., note=...).delete()`. -/
def deleteRating (rs : List RatingRec) (u nid : Nat) : List RatingRec :=
  rs.filter fun r => !(r.userId == u && r.noteId == nid)

/-- The upsert, `Rating.objects.update_or_create(user=..., note=..., defaults={'score': k})`:
update the existing row's score when one exists, otherwise insert a new
row. -/
def updateOrCreate (rs : List RatingRec) (u nid : Nat) (k : ℤ) : List RatingRec :=
  if rs.any fun r => r.userId == u && r.noteId == nid then
    rs.map fun r => if r.userId == u && r.noteId == nid then { r with score := k } else r
  else rs ++ [{ userId := u, noteId := nid, score := k }]

/-- The decimal value of one digit character. -/
def digitVal (c : Char) : Option Nat :=
  if 48 ≤ c.toNat ∧ c.toNat ≤ 57 then some (c.toNat - 48) else none

/-- A non-empty all-digit character list as a number. -/
def parseDigits : List Char → Option Nat
  | [] => none
  | cs => cs.foldl (fun acc c => acc.bind fun a => (digitVal c).map fun d => a * 10 + d)
      (some 0)

/-- Python's `int(s)` on an optionally signed decimal string; `none` when
the parse fails, in which case `int` raises `ValueError`. -/
def pyInt (s : String) : Option ℤ :=
  match s.toList with
  | '-' :: cs => (parseDigits cs).map fun n => -(n : ℤ)
  | '+' :: cs => (parseDigits cs).map fun n => (n : ℤ)
  | cs => (parseDigits cs).map fun n => (n : ℤ)

/-- What `rate_note` returns to the client. -/
inductive RateOutcome where
  /-- The AJAX `JsonResponse` with the new average (rounded to one
  decimal), the submitted score, and the rating count. -/
  | json (avgRating : ℚ) (userScore : ℤ) (count : Nat)
  /-- The fall-through `redirect('note_detail', pk=pk)`. -/
  | redirect
  /-- A 404: `get_object_or_404` raised, no note with this pk. -/
  | notFound
  /-- An `UnboundLocalError`: the response dict reads `user_score`, which no
  branch assigned. -/
  | unboundLocal
  /-- A `ValueError`: `int(score)` failed on a non-numeric string. -/
  | valueError
deriving DecidableEq

/-- The rounding `round(new_avg, 1)`.  (Python rounds a float; we model it
exactly on rationals.) -/
def roundTenths (q : ℚ) : ℚ := (round (q * 10) : ℤ) / 10

/-- The aggregate `note.ratings.aggregate(Avg('score'))['score__avg'] or 0`: the mean
score, with SQL NULL (no ratings) collapsed to `0` by the `or 0`. -/
def avgOrZero (rs : List RatingRec) (nid : Nat) : ℚ :=
  let l := ratingsOf rs nid
  if l.length = 0 then 0 else (l.map fun r => (r.score : ℚ)).sum / l.length

/-- The tail of `rate_note`: the AJAX `JsonResponse` when `user_score` was
assigned (`us = some k`), the `UnboundLocalError` when the response dict
reads an unassigned `user_score`, and the plain redirect otherwise. -/
def rateRespond (rs : List RatingRec) (nid : Nat) (us : Option ℤ) (isAjax : Bool) :
    RateOutcome :=
  if isAjax then
    match us with
    | some k => .json (roundTenths (avgOrZero rs nid)) k (ratingsOf rs nid).length
    | none => .unboundLocal
  else .redirect

/-- The `rate_note` view (`core/views.py` 623-650) as a state transformer
on the ratings table.  `scoreParam` is `request.POST.get('score')`
(`none` when absent).  Mirrors the source:

    if request.method == 'POST':
        note = get_object_or_404(Note, pk=pk)
        score = request.POST.get('score')
        if score == '0':
            Rating.objects.filter(user=request.user, note=note).delete()
            user_score = 0
        elif score:                       # truthy: any non-empty string
            Rating.objects.update_or_create(..., defaults={'score': int(score)})
            user_score = int(score)
        if AJAX: return JsonResponse({... 'user_score': user_score ...})
    return redirect('note_detail', pk=pk)

`int(score)` is modelled by `pyInt`; when it fails the exception
propagates before any write happens. -/
def rateNote (st : Store) (u nid : Nat) (scoreParam : Option String)
    (isPost isAjax : Bool) : RateOutcome × Store :=
  if isPost then
    if st.notes.any fun nr => nr.id == nid then
      if scoreParam = some "0" then
        let rs := deleteRating st.ratings u nid
        (rateRespond rs nid (some 0) isAjax, { st with ratings := rs })
      else
        match scoreParam with
        | some s =>
          if s ≠ "" then
            match pyInt s with
            | some k =>
              let rs := updateOrCreate st.ratings u nid k
              (rateRespond rs nid (some k) isAjax, { st with ratings := rs })
            | none => (.valueError, st)
          else (rateRespond st.ratings nid none isAjax, st)
        | none => (rateRespond st.ratings nid none isAjax, st)
    else (.notFound, st)
  else (.redirect, st)

/-- At most one `Rating` row per `(user, note)` pair — the
`unique_together = ('note', 'user')` constraint of `core/models.py`. -/
def atMostOneRating (rs : List RatingRec) : Prop :=
  List.Pairwise (fun r s => r.userId ≠ s.userId ∨ r.noteId ≠ s.noteId) rs

instance (rs : List RatingRec) : Decidable (atMostOneRating rs) := by
  unfold atMostOneRating; infer_instance

/-- A sequence of `rate_note` POSTs, each `(user, note pk, score parameter,
AJAX flag)`, applied in order to the store. -/
def runRates (st : Store) (ops : List (Nat × Nat × Option String × Bool)) : Store :=
  ops.foldl (fun s op => (rateNote s op.1 op.2.1 op.2.2.1 true op.2.2.2).2) st

/-! ## Spec-side restatement of the scorer (for order-independence)

The spec describes the score as "the sum of per-field weights where the
search term appears", independent of the order in which fields are
examined.  `specScore` is that description, over an explicit list of
(weight, field) pairs, to be compared with `score` above. -/

/-- The five scored fields of a note with their weights, in the source's
priority order. -/
def fieldEntries (n : Note) : List (Nat × String) :=
  [(10, n.title), (8, n.tags), (6, n.course), (4, n.owner), (2, n.description)]

/-- Modelled from the spec: "integer score = sum of per-field weights where
the search term appears as a case-insensitive substring of that field",
over an arbitrary list of (weight, field) pairs. -/
def specScore (q : String) (l : List (Nat × String)) : Nat :=
  (l.map fun p => if icontains p.2 q then p.1 else 0).sum

/-- The three-level search ordering of the spec, as a relation between
adjacent feed entries: strictly more relevant first; among equal
relevance, higher average rating first (`⊥` = missing rating is the
lowest `WithBot ℚ` value); among equal rating, later creation first. -/
def searchOrd (q : String) (a b : Note) : Prop :=
  score b q < score a q ∨
    (score a q = score b q ∧
      (b.avgRating < a.avgRating ∨
        (a.avgRating = b.avgRating ∧ b.createdAt ≤ a.createdAt)))

/-! ## Concrete inputs used by counterexamples and witnesses -/

/-- Title matches the term `"m"` (weight 10); newest. -/
def noteA : Note :=
  { id := 1, owner := "ana", title := "m", course := "", tags := "", description := "",
    createdAt := 2, viewCount := 0, avgRating := ⊥, commentCount := 0 }

/-- Only the description matches the term `"m"` (weight 2); oldest, most
viewed. -/
def noteB : Note :=
  { id := 2, owner := "bob", title := "", course := "", tags := "", description := "m",
    createdAt := 1, viewCount := 5, avgRating := ⊥, commentCount := 0 }

/-- No field contains a space or the letter z: unmatched both by the
whitespace-only term `" "` and by `"zzz"`. -/
def noteC : Note :=
  { id := 3, owner := "ana", title := "calculus", course := "", tags := "",
    description := "", createdAt := 0, viewCount := 1, avgRating := ⊥, commentCount := 0 }

/-- A one-note store for exercising `rate_note`. -/
def store1 : Store :=
  { notes := [{ id := 1, ownerId := 7, ownerName := "ana", title := "m", course := "",
                tags := "", description := "", createdAt := 2, viewCount := 0 }],
    ratings := [{ userId := 5, noteId := 1, score := 4 }],
    comments := [] }

/-! ## Helper lemmas -/

theorem sortByKey_perm {κ : Type} [LinearOrder κ] (f : Note → κ) (l : List Note) :
    (sortByKey f l).Perm l :=
  List.perm_insertionSort _ l

theorem sortByKey_pairwise {κ : Type} [LinearOrder κ] (f : Note → κ) (l : List Note) :
    List.Pairwise (fun a b => f a ≤ f b) (sortByKey f l) := by
  haveI : IsTotal Note fun a b => f a ≤ f b := ⟨fun a b => le_total (f a) (f b)⟩
  haveI : IsTrans Note fun a b => f a ≤ f b := ⟨fun a b c hab hbc => le_trans hab hbc⟩
  exact List.sorted_insertionSort _ l

/-- With a non-empty term, every branch of the pipeline returns a
permutation of the relevance-filtered candidates: re-sorting never drops
the `relevance__gt=0` filter. -/
theorem composeFeed_search_perm (cands : List Note) (q k : String) (hq : q ≠ "") :
    (composeFeed cands q k).Perm (cands.filter fun n => 0 < score n q) := by
  simp only [composeFeed, hq, ne_eq, not_false_eq_true, if_true, if_false]
  split_ifs <;>
    first
      | exact (sortByKey_perm _ _).trans (sortByKey_perm _ _)
      | exact sortByKey_perm _ _

/-- With the empty term, every branch returns a permutation of the full
candidate set: nothing is filtered. -/
theorem composeFeed_empty_perm (cands : List Note) (k : String) :
    (composeFeed cands "" k).Perm cands := by
  simp only [composeFeed, ne_eq, not_true_eq_false, if_false, if_true]
  split_ifs <;> exact sortByKey_perm _ _

/-- With a non-empty term and no overriding sort key, the pipeline is
exactly the filtered candidates in search order. -/
theorem composeFeed_no_override (cands : List Note) (q k : String) (hq : q ≠ "")
    (h1 : k ≠ "oldest") (h2 : k ≠ "most_viewed") (h3 : k ≠ "top_rated") :
    composeFeed cands q k =
      sortByKey (searchKey q) (cands.filter fun n => 0 < score n q) := by
  simp [composeFeed, hq, h1, h2, h3]

/-- The lexicographic search key compares exactly as the three-level
search ordering. -/
theorem searchKey_le_iff (q : String) (a b : Note) :
    searchKey q a ≤ searchKey q b ↔ searchOrd q a b := by
  unfold searchKey searchOrd
  rw [Prod.Lex.le_iff]
  simp [Prod.Lex.le_iff, neg_lt_neg_iff, Nat.cast_lt, neg_inj, Nat.cast_inj,
    neg_le_neg_iff, OrderDual.toDual_le_toDual, OrderDual.toDual_lt_toDual,
    OrderDual.toDual_inj]


/-! ## Claims -/

/-- C3: for every note and non-empty search term, the relevance score is
the sum, over exactly the fields in which the term occurs as a
case-insensitive substring, of the weights title=10, tags=8, course=6,
owner username=4, description=2, independently of the order in which the
fields are examined. -/
theorem score_is_order_free_weight_sum (n : Note) (q : String) (l : List (Nat × String))
    (hq : q ≠ "") (hl : l.Perm (fieldEntries n)) :
    specScore q l = score n q := by
  have h1 : specScore q l = specScore q (fieldEntries n) := by
    unfold specScore
    exact (hl.map fun p : Nat × String => if icontains p.2 q then p.1 else 0).sum_eq
  rw [h1]
  simp only [specScore, fieldEntries, List.map_cons, List.map_nil, List.sum_cons,
    List.sum_nil, score]
  ring

/-- C3 witness: the fields of `noteA` examined with title and tags
swapped still give its score for the term `"m"`. -/
theorem score_is_order_free_weight_sum_witness :
    ("m" ≠ "") ∧
      specScore "m" [(8, noteA.tags), (10, noteA.title), (6, noteA.course),
        (4, noteA.owner), (2, noteA.description)] = score noteA "m" :=
  ⟨by decide, score_is_order_free_weight_sum noteA "m" _ (by decide)
    (List.Perm.swap _ _ _)⟩

/-- C5: with a non-empty term, a note matched by none of the five scored
fields scores 0 and is excluded from the feed, and every note in the feed
has a strictly positive score (score ≤ 0 is filtered out) — under any
sort key. -/
theorem unmatched_note_is_filtered_out (cands : List Note) (q k : String) (n : Note)
    (hq : q ≠ "")
    (hnm : icontains n.title q = false ∧ icontains n.tags q = false ∧
      icontains n.course q = false ∧ icontains n.owner q = false ∧
      icontains n.description q = false) :
    (score n q = 0 ∧ n ∉ composeFeed cands q k) ∧
      ∀ m ∈ composeFeed cands q k, 0 < score m q := by
  have hperm := composeFeed_search_perm cands q k hq
  have hmem : ∀ m ∈ composeFeed cands q k, 0 < score m q := by
    intro m hm
    have h2 := (List.mem_filter.mp (hperm.mem_iff.mp hm)).2
    simpa using h2
  have hs : score n q = 0 := by
    obtain ⟨h1, h2, h3, h4, h5⟩ := hnm
    simp [score, h1, h2, h3, h4, h5]
  refine ⟨⟨hs, fun hmem' => ?_⟩, hmem⟩
  have := hmem n hmem'
  omega

/-- C5 witness: `"zzz"` matches no field of `noteC`, which scores 0 and is
dropped; every survivor of the feed over `[noteA, noteC]` scores
positively. -/
theorem unmatched_note_is_filtered_out_witness :
    (score noteC "zzz" = 0 ∧ noteC ∉ composeFeed [noteA, noteC] "zzz" "recent") ∧
      ∀ m ∈ composeFeed [noteA, noteC] "zzz" "recent", 0 < score m "zzz" :=
  unmatched_note_is_filtered_out [noteA, noteC] "zzz" "recent" noteC (by decide)
    (by decide)

/-- C6: with an empty search term, an unknown sort key (outside recent /
oldest / most_viewed / top_rated) produces exactly the feed of the
default `recent` key — a fallback, not an error. -/
theorem unknown_sort_key_is_recent (cands : List Note) (k : String)
    (h1 : k ≠ "recent") (h2 : k ≠ "oldest") (h3 : k ≠ "most_viewed")
    (h4 : k ≠ "top_rated") :
    composeFeed cands "" k = composeFeed cands "" "recent" := by
  simp [composeFeed, h2, h3, h4]

/-- C6 witness: the literal unknown key `"bogus_sort_key"` on a concrete
candidate set. -/
theorem unknown_sort_key_is_recent_witness :
    composeFeed [noteA, noteB] "" "bogus_sort_key" =
      composeFeed [noteA, noteB] "" "recent" :=
  unknown_sort_key_is_recent [noteA, noteB] "bogus_sort_key" (by decide) (by decide)
    (by decide) (by decide)

/-- C7: with an empty term and sort key `most_viewed`, the feed is all
candidates (no relevance filtering), in non-increasing view-count
order. -/
theorem empty_term_most_viewed_feed (cands : List Note) :
    ((composeFeed cands "" "most_viewed").Perm cands) ∧
      List.Pairwise (fun a b => b.viewCount ≤ a.viewCount)
        (composeFeed cands "" "most_viewed") := by
  refine ⟨composeFeed_empty_perm cands _, ?_⟩
  have h : composeFeed cands "" "most_viewed" = sortByKey viewKey cands := by
    simp [composeFeed]
  rw [h]
  exact (sortByKey_pairwise viewKey cands).imp fun hab => by
    simpa [viewKey, neg_le_neg_iff, Nat.cast_le] using hab

/-- C9: composing the home feed is free of side effects: the note,
rating, and comment tables after the computation are those before it. -/
theorem homeView_mutates_nothing (st : Store) (q k : String) :
    (homeView st q k).2.notes = st.notes ∧
      (homeView st q k).2.ratings = st.ratings ∧
      (homeView st q k).2.comments = st.comments :=
  ⟨rfl, rfl, rfl⟩

/-- C1 counterexample: with the search term `"m"` active, the requested
sort key does change the result — `oldest` yields a different feed than
the default, so the sort key is not ignored while searching. -/
theorem sort_key_ignored_when_searching_cex :
    composeFeed [noteA, noteB] "m" "oldest" ≠
      composeFeed [noteA, noteB] "m" "recent" := by
  decide

/-- C1 amended: with a non-empty search term, the keys `recent` and any
unknown key leave the three-level search ordering in force, but `oldest`,
`most_viewed` and `top_rated` override it, re-sorting the results by
their own key (creation ascending / views descending / rating descending
with missing rating last); the relevance filter applies under every sort
key. -/
theorem sort_key_overrides_search_order (cands : List Note) (q : String) (hq : q ≠ "") :
    (∀ k, k ≠ "oldest" → k ≠ "most_viewed" → k ≠ "top_rated" →
        composeFeed cands q k = composeFeed cands q "recent") ∧
      List.Pairwise (fun a b => a.createdAt ≤ b.createdAt)
        (composeFeed cands q "oldest") ∧
      List.Pairwise (fun a b => b.viewCount ≤ a.viewCount)
        (composeFeed cands q "most_viewed") ∧
      List.Pairwise (fun a b => b.avgRating ≤ a.avgRating)
        (composeFeed cands q "top_rated") ∧
      ∀ k, (composeFeed cands q k).Perm (cands.filter fun n => 0 < score n q) := by
  refine ⟨?_, ?_, ?_, ?_, fun k => composeFeed_search_perm cands q k hq⟩
  · intro k hk1 hk2 hk3
    rw [composeFeed_no_override cands q k hq hk1 hk2 hk3,
      composeFeed_no_override cands q "recent" hq (by decide) (by decide) (by decide)]
  · have h : composeFeed cands q "oldest" =
        sortByKey oldestKey (sortByKey (searchKey q)
          (cands.filter fun n => 0 < score n q)) := by
      simp [composeFeed, hq]
    rw [h]
    exact (sortByKey_pairwise oldestKey _).imp fun hab => hab
  · have h : composeFeed cands q "most_viewed" =
        sortByKey viewKey (sortByKey (searchKey q)
          (cands.filter fun n => 0 < score n q)) := by
      simp [composeFeed, hq]
    rw [h]
    exact (sortByKey_pairwise viewKey _).imp fun hab => by
      simpa [viewKey, neg_le_neg_iff, Nat.cast_le] using hab
  · have h : composeFeed cands q "top_rated" =
        sortByKey topRatedKey (sortByKey (searchKey q)
          (cands.filter fun n => 0 < score n q)) := by
      simp [composeFeed, hq]
    rw [h]
    exact (sortByKey_pairwise topRatedKey _).imp fun hab => by
      simpa [topRatedKey, OrderDual.toDual_le_toDual] using hab

/-- C1 amended witness: at the term `"m"`, the unknown key `"bogus"`
coincides with `recent` on a concrete candidate set. -/
theorem sort_key_overrides_search_order_witness :
    composeFeed [noteA, noteB] "m" "bogus" = composeFeed [noteA, noteB] "m" "recent" :=
  (sort_key_overrides_search_order [noteA, noteB] "m" (by decide)).1 "bogus"
    (by decide) (by decide) (by decide)

/-- C2 counterexample: the whitespace-only term `" "` does invoke the
scorer and filters: `noteC` (no space in any scored field) is dropped
from its own feed instead of being kept. -/
theorem whitespace_term_skips_scorer_cex :
    noteC ∉ composeFeed [noteC] " " "recent" := by
  decide

/-- C2 amended: only the empty (or absent) term bypasses the scorer —
then no note is filtered and the feed is a permutation of the candidates;
any non-empty term, a whitespace-only one included, invokes the scorer and
the feed is a permutation of the relevance-filtered candidates. -/
theorem only_empty_term_skips_scorer (cands : List Note) (q k : String) :
    (composeFeed cands "" k).Perm cands ∧
      (q ≠ "" → (composeFeed cands q k).Perm
        (cands.filter fun n => 0 < score n q)) :=
  ⟨composeFeed_empty_perm cands k, fun hq => composeFeed_search_perm cands q k hq⟩

/-- C2 amended witness: the empty term keeps `noteC`; the whitespace term
`" "` filters `[noteC]` down to the (empty) set of relevance matches. -/
theorem only_empty_term_skips_scorer_witness :
    (composeFeed [noteC] "" "recent").Perm [noteC] ∧
      (composeFeed [noteC] " " "recent").Perm
        ([noteC].filter fun n => 0 < score n " ") :=
  ⟨(only_empty_term_skips_scorer [noteC] " " "recent").1,
    (only_empty_term_skips_scorer [noteC] " " "recent").2 (by decide)⟩

/-- C4 counterexample: under the sort key `oldest`, the feed for the term
`"m"` is not in non-increasing relevance order. -/
theorem search_results_relevance_sorted_cex :
    ¬ List.Pairwise (fun a b => score b "m" ≤ score a "m")
        (composeFeed [noteA, noteB] "m" "oldest") := by
  decide

/-- C4 amended: when no overriding sort key is requested (the key is
`recent` or unknown), search results are ordered by relevance descending,
then average rating descending with a missing rating lowest, then
creation time descending. -/
theorem search_results_relevance_sorted (cands : List Note) (q k : String)
    (hq : q ≠ "") (h1 : k ≠ "oldest") (h2 : k ≠ "most_viewed")
    (h3 : k ≠ "top_rated") :
    List.Pairwise (searchOrd q) (composeFeed cands q k) := by
  rw [composeFeed_no_override cands q k hq h1 h2 h3]
  exact (sortByKey_pairwise (searchKey q) _).imp fun hab =>
    (searchKey_le_iff q _ _).mp hab

/-- C4 amended witness: the default-key feed for the term `"m"` over
`[noteA, noteB]` is in three-level search order. -/
theorem search_results_relevance_sorted_witness :
    List.Pairwise (searchOrd "m") (composeFeed [noteA, noteB] "m" "recent") :=
  search_results_relevance_sorted [noteA, noteB] "m" "recent" (by decide)
    (by decide) (by decide) (by decide)

/-! ## Rating lemmas -/

theorem deleteRating_no_pair (rs : List RatingRec) (u nid : Nat) :
    ∀ r ∈ deleteRating rs u nid, ¬(r.userId = u ∧ r.noteId = nid) := by
  intro r hr hcon
  have h := (List.mem_filter.mp hr).2
  simp [hcon.1, hcon.2] at h

theorem deleteRating_inv (rs : List RatingRec) (u nid : Nat)
    (h : atMostOneRating rs) : atMostOneRating (deleteRating rs u nid) :=
  h.sublist (List.filter_sublist rs)

theorem updateOrCreate_mem (rs : List RatingRec) (u nid : Nat) (k : ℤ) :
    ∃ r ∈ updateOrCreate rs u nid k,
      r.userId = u ∧ r.noteId = nid ∧ r.score = k := by
  unfold updateOrCreate
  split_ifs with hex
  · rw [List.any_eq_true] at hex
    obtain ⟨r0, hr0, hp⟩ := hex
    rw [Bool.and_eq_true, beq_iff_eq, beq_iff_eq] at hp
    refine ⟨{ r0 with score := k }, ?_, hp.1, hp.2, rfl⟩
    refine List.mem_map.mpr ⟨r0, hr0, ?_⟩
    simp [hp.1, hp.2]
  · exact ⟨⟨u, nid, k⟩, by simp, rfl, rfl, rfl⟩

theorem updateOrCreate_inv (rs : List RatingRec) (u nid : Nat) (k : ℤ)
    (h : atMostOneRating rs) : atMostOneRating (updateOrCreate rs u nid k) := by
  unfold updateOrCreate atMostOneRating
  split_ifs with hex
  · rw [List.pairwise_map]
    refine h.imp fun {a b} hab => ?_
    rcases hab with h1 | h1
    · left
      split_ifs <;> simpa using h1
    · right
      split_ifs <;> simpa using h1
  · rw [List.pairwise_append]
    refine ⟨h, List.pairwise_singleton _ _, ?_⟩
    intro a ha b hb
    rw [List.mem_singleton] at hb
    subst hb
    have hall : ¬(a.userId == u && a.noteId == nid) = true := fun hp =>
      hex (List.any_eq_true.mpr ⟨a, ha, hp⟩)
    rw [Bool.and_eq_true, beq_iff_eq, beq_iff_eq] at hall
    by_cases hu : a.userId = u
    · exact Or.inr fun hn => hall ⟨hu, hn⟩
    · exact Or.inl hu

/-- The view `rate_note` preserves the one-rating-per-(user, note) invariant, for
every request shape (method, note id, score parameter, AJAX or not). -/
theorem rateNote_inv (st : Store) (u nid : Nat) (sp : Option String)
    (isPost isAjax : Bool) (h : atMostOneRating st.ratings) :
    atMostOneRating (rateNote st u nid sp isPost isAjax).2.ratings := by
  unfold rateNote
  split_ifs with hpost hnote h0
  · exact deleteRating_inv st.ratings u nid h
  · rcases sp with _ | s
    · exact h
    · dsimp only
      split
      · split
        · exact updateOrCreate_inv st.ratings u nid _ h
        · exact h
      · exact h
  · exact h
  · exact h

theorem runRates_inv (ops : List (Nat × Nat × Option String × Bool)) (st : Store)
    (h : atMostOneRating st.ratings) : atMostOneRating (runRates st ops).ratings := by
  induction ops generalizing st with
  | nil => exact h
  | cons op rest ih =>
    exact ih _ (rateNote_inv st op.1 op.2.1 op.2.2.1 true op.2.2.2 h)

/-- C8: submitting the score `'0'` deletes the user's rating of the note;
submitting a non-`'0'` numeric score creates or overwrites the single
rating of that (user, note) pair; and any sequence of rate operations
keeps at most one `Rating` per (user, note) pair. -/
theorem rating_upsert_delete_unique (st : Store) (u nid : Nat) (s : String) (k : ℤ)
    (isAjax : Bool) (ops : List (Nat × Nat × Option String × Bool))
    (hinv : atMostOneRating st.ratings)
    (hnote : (st.notes.any fun nr => nr.id == nid) = true)
    (h0 : s ≠ "0") (hk : pyInt s = some k) :
    (∀ r ∈ (rateNote st u nid (some "0") true isAjax).2.ratings,
        ¬(r.userId = u ∧ r.noteId = nid)) ∧
      (∃ r ∈ (rateNote st u nid (some s) true isAjax).2.ratings,
        r.userId = u ∧ r.noteId = nid ∧ r.score = k) ∧
      atMostOneRating (rateNote st u nid (some s) true isAjax).2.ratings ∧
      atMostOneRating (runRates st ops).ratings := by
  refine ⟨?_, ?_, rateNote_inv st u nid (some s) true isAjax hinv,
    runRates_inv ops st hinv⟩
  · have he : (rateNote st u nid (some "0") true isAjax).2.ratings =
        deleteRating st.ratings u nid := by
      simp [rateNote, hnote]
    rw [he]
    exact deleteRating_no_pair st.ratings u nid
  · have hs : s ≠ "" := by
      rintro rfl
      rw [show pyInt "" = none by decide] at hk
      exact Option.noConfusion hk
    have he : (rateNote st u nid (some s) true isAjax).2.ratings =
        updateOrCreate st.ratings u nid k := by
      simp [rateNote, hnote, h0, hs, hk]
    rw [he]
    exact updateOrCreate_mem st.ratings u nid k

/-- C8 witness: on a one-note, one-rating store, user 5 re-rating note 1
with `'5'` and the two-operation sequence rate-then-delete keep the
(user, note) uniqueness, and `'0'` leaves no rating of the pair. -/
theorem rating_upsert_delete_unique_witness :
    (∀ r ∈ (rateNote store1 5 1 (some "0") true true).2.ratings,
        ¬(r.userId = 5 ∧ r.noteId = 1)) ∧
      (∃ r ∈ (rateNote store1 5 1 (some "5") true true).2.ratings,
        r.userId = 5 ∧ r.noteId = 1 ∧ r.score = 5) ∧
      atMostOneRating (rateNote store1 5 1 (some "5") true true).2.ratings ∧
      atMostOneRating
        (runRates store1 [(6, 1, some "3", true), (5, 1, some "0", false)]).ratings :=
  rating_upsert_delete_unique store1 5 1 "5" 5 true
    [(6, 1, some "3", true), (5, 1, some "0", false)]
    (by decide) (by decide) (by decide) (by decide)

/-- C10: an AJAX POST to `rate_note` whose score parameter is absent or
the empty string runs neither the delete nor the upsert branch; building
the JSON response then reads the never-assigned `user_score`, so the
request fails with an `UnboundLocalError` and the stored ratings are
unchanged. -/
theorem rate_without_score_errors (st : Store) (u nid : Nat) (sp : Option String)
    (hsp : sp = none ∨ sp = some "")
    (hnote : (st.notes.any fun nr => nr.id == nid) = true) :
    rateNote st u nid sp true true = (RateOutcome.unboundLocal, st) := by
  rcases hsp with rfl | rfl <;> simp [rateNote, hnote, rateRespond]

/-- C10 witness: an AJAX POST with no score parameter on a concrete
store. -/
theorem rate_without_score_errors_witness :
    rateNote store1 5 1 none true true = (RateOutcome.unboundLocal, store1) :=
  rate_without_score_errors store1 5 1 none (Or.inl rfl) (by decide)
